import Mathlib

/-!
Verification of the rubank-api-client Session Lifecycle and Transaction
Ingestion Engine against its specification.  The definitions below are a
shallow embedding of `src/rubank_api_client/tbank.py` and
`src/rubank_api_client/sber.py`: Python dictionaries become insertion-ordered
association lists, JSON documents become the inductive type `JVal`, byte
strings become `List Nat`, raising code returns `Option` or `Except`, and the
external gzip and JSON libraries are abstracted into a `Codec` record of
partial functions.
-/

namespace Rubank

/-- A JSON value, as produced by the Python json module: numbers are modelled
as integers (all values handled by the client are identifiers and millisecond
timestamps). -/
inductive JVal where
  | null : JVal
  | bool (b : Bool) : JVal
  | num (n : Int) : JVal
  | str (s : String) : JVal
  | arr (elems : List JVal) : JVal
  | obj (fields : List (String × JVal)) : JVal
deriving Repr

mutual

/-- Decidable equality on JSON values (the deriving handler does not support
the nested list occurrences). -/
def decEqJVal : (a b : JVal) → Decidable (a = b)
  | .null, .null => .isTrue rfl
  | .null, .bool _ => .isFalse (fun h => nomatch h)
  | .null, .num _ => .isFalse (fun h => nomatch h)
  | .null, .str _ => .isFalse (fun h => nomatch h)
  | .null, .arr _ => .isFalse (fun h => nomatch h)
  | .null, .obj _ => .isFalse (fun h => nomatch h)
  | .bool _, .null => .isFalse (fun h => nomatch h)
  | .bool x, .bool y =>
    if h : x = y then .isTrue (by rw [h]) else .isFalse (fun hh => h (by cases hh; rfl))
  | .bool _, .num _ => .isFalse (fun h => nomatch h)
  | .bool _, .str _ => .isFalse (fun h => nomatch h)
  | .bool _, .arr _ => .isFalse (fun h => nomatch h)
  | .bool _, .obj _ => .isFalse (fun h => nomatch h)
  | .num _, .null => .isFalse (fun h => nomatch h)
  | .num _, .bool _ => .isFalse (fun h => nomatch h)
  | .num x, .num y =>
    if h : x = y then .isTrue (by rw [h]) else .isFalse (fun hh => h (by cases hh; rfl))
  | .num _, .str _ => .isFalse (fun h => nomatch h)
  | .num _, .arr _ => .isFalse (fun h => nomatch h)
  | .num _, .obj _ => .isFalse (fun h => nomatch h)
  | .str _, .null => .isFalse (fun h => nomatch h)
  | .str _, .bool _ => .isFalse (fun h => nomatch h)
  | .str _, .num _ => .isFalse (fun h => nomatch h)
  | .str x, .str y =>
    if h : x = y then .isTrue (by rw [h]) else .isFalse (fun hh => h (by cases hh; rfl))
  | .str _, .arr _ => .isFalse (fun h => nomatch h)
  | .str _, .obj _ => .isFalse (fun h => nomatch h)
  | .arr _, .null => .isFalse (fun h => nomatch h)
  | .arr _, .bool _ => .isFalse (fun h => nomatch h)
  | .arr _, .num _ => .isFalse (fun h => nomatch h)
  | .arr _, .str _ => .isFalse (fun h => nomatch h)
  | .arr xs, .arr ys =>
    match decEqJValList xs ys with
    | .isTrue h => .isTrue (by rw [h])
    | .isFalse h => .isFalse (fun hh => h (by cases hh; rfl))
  | .arr _, .obj _ => .isFalse (fun h => nomatch h)
  | .obj _, .null => .isFalse (fun h => nomatch h)
  | .obj _, .bool _ => .isFalse (fun h => nomatch h)
  | .obj _, .num _ => .isFalse (fun h => nomatch h)
  | .obj _, .str _ => .isFalse (fun h => nomatch h)
  | .obj _, .arr _ => .isFalse (fun h => nomatch h)
  | .obj xs, .obj ys =>
    match decEqJValFields xs ys with
    | .isTrue h => .isTrue (by rw [h])
    | .isFalse h => .isFalse (fun hh => h (by cases hh; rfl))

/-- Decidable equality on lists of JSON values. -/
def decEqJValList : (xs ys : List JVal) → Decidable (xs = ys)
  | [], [] => .isTrue rfl
  | [], _ :: _ => .isFalse (fun h => nomatch h)
  | _ :: _, [] => .isFalse (fun h => nomatch h)
  | x :: xs, y :: ys =>
    match decEqJVal x y with
    | .isFalse h1 => .isFalse (fun h => h1 (by cases h; rfl))
    | .isTrue h1 =>
      match decEqJValList xs ys with
      | .isTrue h2 => .isTrue (by rw [h1, h2])
      | .isFalse h2 => .isFalse (fun h => h2 (by cases h; rfl))

/-- Decidable equality on lists of JSON object fields. -/
def decEqJValFields :
    (xs ys : List (String × JVal)) → Decidable (xs = ys)
  | [], [] => .isTrue rfl
  | [], _ :: _ => .isFalse (fun h => nomatch h)
  | _ :: _, [] => .isFalse (fun h => nomatch h)
  | (s, x) :: xs, (t, y) :: ys =>
    if hs : s = t then
      match decEqJVal x y with
      | .isFalse h1 => .isFalse (fun h => h1 (by cases h; rfl))
      | .isTrue h1 =>
        match decEqJValFields xs ys with
        | .isTrue h2 => .isTrue (by rw [hs, h1, h2])
        | .isFalse h2 => .isFalse (fun h => h2 (by cases h; rfl))
    else
      .isFalse (fun h => hs (by cases h; rfl))

end

instance : DecidableEq JVal := decEqJVal

/-- Python truthiness of a JSON value: None, False, 0, empty string, empty
list and empty dict are falsy, everything else is truthy.  This is the test
performed by the line `if op_id:` in `__save_new_operations_to_cache_file`. -/
def truthy : JVal → Bool
  | .null => false
  | .bool b => b
  | .num n => n != 0
  | .str s => !s.isEmpty
  | .arr elems => !elems.isEmpty
  | .obj fields => !fields.isEmpty

/-- Field lookup on a JSON object, the embedding of `op.get(k)`: returns
`none` when the value is not an object (where Python would raise
AttributeError) or when the key is absent (where Python returns None). -/
def objGet : JVal → String → Option JVal
  | .obj fields, k => fields.lookup k
  | _, _ => none

/-- Whether the value is a JSON object, hence supports `.get` in Python. -/
def isObj : JVal → Bool
  | .obj _ => true
  | _ => false

/-- The transaction cache: the persisted JSON object mapping operation id to
operation record, in insertion order, as a Python dict holds it. -/
abbrev Cache := List (JVal × JVal)

/-- Keys of a cache, in order. -/
def Cache.keys (c : Cache) : List JVal := c.map Prod.fst

/-- Records of a cache, in order, the embedding of `cached_ops.values()`. -/
def Cache.values (c : Cache) : List JVal := c.map Prod.snd

/-- Python dict assignment `d[k] = v`: replaces the value in place when the
key is present, otherwise appends the pair at the end. -/
def Cache.upsert (c : Cache) (k v : JVal) : Cache :=
  if c.any (fun p => p.1 = k) then
    c.map (fun p => if p.1 = k then (k, v) else p)
  else
    c ++ [(k, v)]

/-- All records stored under a given identifier (a valid Python dict holds at
most one). -/
def Cache.recordsFor (c : Cache) (k : JVal) : List JVal :=
  (c.filter (fun p => p.1 = k)).map Prod.snd

/-- The external gzip and JSON libraries, abstracted: `decompress` embeds
`gzip.decompress` and `parse` embeds `body.decode("utf-8")` followed by
`json.loads`; `none` models a raised exception. -/
structure Codec where
  decompress : List Nat → Option (List Nat)
  parse : List Nat → Option JVal

/-- The two-byte gzip signature 0x1f 0x8b checked by
`get_operations_body.startswith(b'\x1f\x8b')`. -/
def gzipMagic : List Nat := [31, 139]

/-- The decode stage of `__save_new_operations_to_cache_file`: optional gzip
decompression, JSON parsing, and extraction of the list under the "payload"
key (`new_data.get("payload", [])`).  `none` models any raised exception:
failed decompression, failed decoding or parsing, a parsed document that is
not an object, or a "payload" value that is not a list (iterating it either
raises at once or yields non-dict elements that raise on `.get`). -/
def extractOps (codec : Codec) (body : List Nat) : Option (List JVal) :=
  match
    (if gzipMagic.isPrefixOf body then codec.decompress body else some body)
  with
  | none => none
  | some body2 =>
    match codec.parse body2 with
    | none => none
    | some newData =>
      if isObj newData then
        match (objGet newData "payload").getD (.arr []) with
        | .arr ops => some ops
        | _ => none
      else
        none

/-- The merge loop of `__save_new_operations_to_cache_file`: for each
operation `op.get("id")` is read and, when truthy, the record is upserted
under it.  A non-object element makes `op.get` raise, which aborts the whole
ingest before the cache file is written, so the error propagates as `none`. -/
def ingestOps (c : Cache) : List JVal → Option Cache
  | [] => some c
  | op :: rest =>
    if isObj op then
      let opId := (objGet op "id").getD .null
      ingestOps (if truthy opId then c.upsert opId op else c) rest
    else
      none

/-- The embedding of `__save_new_operations_to_cache_file`: decode the body,
merge the extracted operations into the cache, and on any exception leave the
cache unchanged (the enclosing try block catches and logs everything, and the
cache file is only rewritten after a fully successful merge). -/
def saveNewOperationsToCacheFile (codec : Codec) (c : Cache) (body : List Nat) :
    Cache :=
  match extractOps codec body with
  | none => c
  | some ops =>
    match ingestOps c ops with
    | some c2 => c2
    | none => c

/-- Whether a character is an ASCII digit. -/
def isDigitChar (c : Char) : Bool := 48 ≤ c.toNat && c.toNat ≤ 57

/-- The numeric value of a nonempty all-digit character list. -/
def digitsVal (cs : List Char) : Option Nat :=
  cs.foldl (fun acc c =>
    match acc with
    | none => none
    | some n => if isDigitChar c then some (n * 10 + (c.toNat - 48)) else none)
    (if cs.isEmpty then none else some 0)

/-- Python `int(s)` on a string: an optional sign followed by digits; `none`
models a raised ValueError. -/
def pyStrToInt (s : String) : Option Int :=
  match s.data with
  | '-' :: rest => (digitsVal rest).map (fun n => -(n : Int))
  | '+' :: rest => (digitsVal rest).map (fun n => (n : Int))
  | cs => (digitsVal cs).map (fun n => (n : Int))

/-- Python `int(v)` on a JSON value: numbers convert, numeric strings parse,
booleans become 0 or 1, anything else raises (`none`). -/
def pyInt : JVal → Option Int
  | .num n => some n
  | .str s => pyStrToInt s
  | .bool b => some (if b then 1 else 0)
  | _ => none

/-- Python `str.isdigit()`: nonempty and all characters are digits. -/
def pyIsDigit (s : String) : Bool :=
  !s.data.isEmpty && s.data.all isDigitChar

/-- The embedding of `TBankOperationsFilter._convert_date_to_timestamp`: a
digit string is assumed to already be a millisecond timestamp and returned
unchanged; otherwise the string is parsed with the format
`%d.%m.%YT%H:%M:%S` and converted to a millisecond timestamp.  The strptime
plus timezone arithmetic lives outside the repository and is abstracted as
`parseDate`; `none` models the re-raised parse exception. -/
def convertDateToTimestamp (parseDate : String → Option Int) (s : String) :
    Option String :=
  if pyIsDigit s then some s
  else (parseDate s).map (fun ts => toString ts)

/-- The value passed as `result_format`: the dict type, the DataFrame type,
None, or any other Python value (with a tag standing for its repr). -/
inductive ResultFormatInput where
  | rfDict : ResultFormatInput
  | rfDataFrame : ResultFormatInput
  | rfNone : ResultFormatInput
  | rfOther (tag : String) : ResultFormatInput
deriving DecidableEq, Repr

/-- A recognized output shape retained by the filter. -/
inductive ResultFormat where
  | rdict : ResultFormat
  | rdataFrame : ResultFormat
deriving DecidableEq, Repr

/-- The `result_format in (dict, pd.DataFrame)` check shared by both filter
constructors: recognized shapes are kept, everything else becomes None. -/
def normalizeResultFormat : ResultFormatInput → Option ResultFormat
  | .rfDict => some .rdict
  | .rfDataFrame => some .rdataFrame
  | .rfNone => none
  | .rfOther _ => none

/-- The state of a constructed `TBankOperationsFilter`: both dates stored as
millisecond-timestamp strings. -/
structure TBankOperationsFilter where
  date_from : String
  date_to : String
  result_format : Option ResultFormat
deriving DecidableEq, Repr

/-- The embedding of `TBankOperationsFilter.__init__`: both date strings are
converted to millisecond timestamps (a missing `date_to` becomes the current
time `nowMs`), and an unrecognized `result_format` degrades to None with a
logged warning.  `none` models a date-parsing exception propagating out of
the constructor; no other validation is performed. -/
def mkTBankOperationsFilter (parseDate : String → Option Int) (nowMs : Int)
    (date_from : String) (date_to : Option String)
    (result_format : ResultFormatInput) : Option TBankOperationsFilter :=
  match convertDateToTimestamp parseDate date_from with
  | none => none
  | some df =>
    match
      (match date_to with
       | none => some (toString nowMs)
       | some s => convertDateToTimestamp parseDate s)
    with
    | none => none
    | some dt =>
      some { date_from := df, date_to := dt,
             result_format := normalizeResultFormat result_format }

/-- The state of a constructed `SberBankOperationsFilter`. -/
structure SberBankOperationsFilter where
  type : Option String
  date_from : Option String
  date_to : Option String
  resource : Option (List String)
  result_format : Option ResultFormat
  pagination_offset : Int
  pagination_size : Int
  show_hidden : Bool
deriving DecidableEq, Repr

/-- The embedding of `SberBankOperationsFilter.__init__`: all fields are
stored as given, except that an unrecognized `result_format` degrades to None
with a logged warning.  The constructor never raises. -/
def mkSberBankOperationsFilter (operation_type date_from date_to : Option String)
    (resource : Option (List String)) (result_format : ResultFormatInput)
    (pagination_offset pagination_size : Int) (show_hidden : Bool) :
    SberBankOperationsFilter :=
  { type := operation_type
    date_from := date_from
    date_to := date_to
    resource := resource
    result_format := normalizeResultFormat result_format
    pagination_offset := pagination_offset
    pagination_size := pagination_size
    show_hidden := show_hidden }

/-- The timestamp extraction inside `get_operations`:
`op.get("debitingTime", {}).get("milliseconds")` followed, when the value is
not None, by `int(...)`.  The outer `none` models a raised exception (a
non-object record or debitingTime, or a milliseconds value `int` rejects);
`some none` means the record has no milliseconds value and is skipped;
`some (some t)` is the timestamp used for the range test. -/
def debitingTimeMs (op : JVal) : Option (Option Int) :=
  if isObj op then
    match (objGet op "debitingTime").getD (.obj []) with
    | .obj fields =>
      match fields.lookup "milliseconds" with
      | none => some none
      | some .null => some none
      | some v => (pyInt v).map some
    | _ => none
  else none

/-- The list comprehension of `get_operations`: keep the records whose
milliseconds timestamp exists and lies in the inclusive range.  `none` models
an exception raised while evaluating the comprehension. -/
def filterOperations (dateFrom dateTo : Int) : List JVal → Option (List JVal)
  | [] => some []
  | op :: rest =>
    match debitingTimeMs op with
    | none => none
    | some m =>
      match filterOperations dateFrom dateTo rest with
      | none => none
      | some tail =>
        match m with
        | some t =>
          if dateFrom ≤ t ∧ t ≤ dateTo then some (op :: tail) else some tail
        | none => some tail

/-- The value returned by `TBankApiClient.get_operations`: either the plain
record list or the same rows converted to a DataFrame. -/
inductive QueryResult where
  | records (ops : List JVal) : QueryResult
  | dataFrame (rows : List JVal) : QueryResult
deriving DecidableEq, Repr

/-- The rows carried by a query result, whatever its shape. -/
def QueryResult.ops : QueryResult → List JVal
  | .records l => l
  | .dataFrame l => l

/-- The embedding of `TBankApiClient.get_operations`: convert the filter
bounds with `int(...)`, filter the cached records on their debitingTime
milliseconds, and shape the result according to `result_format` (DataFrame
when requested, the plain list otherwise).  `none` models a raised
exception. -/
def getOperations (c : Cache) (f : TBankOperationsFilter) :
    Option QueryResult :=
  match pyStrToInt f.date_from with
  | none => none
  | some dateFrom =>
    match pyStrToInt f.date_to with
    | none => none
    | some dateTo =>
      match filterOperations dateFrom dateTo c.values with
      | none => none
      | some filtered =>
        some (match f.result_format with
              | some .rdataFrame => .dataFrame filtered
              | _ => .records filtered)

/-- A browser cookie as returned by `driver.get_cookies()`. -/
structure DriverCookie where
  name : String
  value : String
  domain : String
deriving DecidableEq, Repr

/-- Python dict assignment `m[k] = v` on a string dictionary. -/
def dictSet (m : List (String × String)) (k v : String) :
    List (String × String) :=
  if m.any (fun p => p.1 = k) then
    m.map (fun p => if p.1 = k then (k, v) else p)
  else
    m ++ [(k, v)]

/-- A Python dict comprehension over key-value pairs: later pairs win. -/
def dictOfPairs (ps : List (String × String)) : List (String × String) :=
  ps.foldl (fun m p => dictSet m p.1 p.2) []

/-- Python `m.update(ps)`. -/
def dictUpdate (m ps : List (String × String)) : List (String × String) :=
  ps.foldl (fun acc p => dictSet acc p.1 p.2) m

/-- The `session_data` dictionary pickled by
`SberBankApiClient.__conserve_session`; the node identifiers are optional so
that a stored state missing them can be described. -/
structure SberSessionData where
  cookies : List (String × String)
  selenium_driver_cookies : List DriverCookie
  headers : List (String × String)
  local_storage : List (String × String)
  sberbank_frontend_web_node_id : Option String
  sberbank_backend_api_web_node_id : Option String
deriving DecidableEq, Repr

/-- The embedding of `SberBankApiClient.__conserve_session`: the request
cookies are the name-to-value projection of the driver cookies, the headers
are the User-Agent header updated with the captured backend node headers, and
the whole record is pickled to the session file. -/
def conserveSessionData (driverCookies : List DriverCookie)
    (userAgent : String) (backendNodeHeaders : List (String × String))
    (localStorage : List (String × String))
    (frontendNodeId backendNodeId : Option String) : SberSessionData :=
  { cookies := dictOfPairs (driverCookies.map (fun ck => (ck.name, ck.value)))
    selenium_driver_cookies := driverCookies
    headers := dictUpdate [("User-Agent", userAgent)] backendNodeHeaders
    local_storage := localStorage
    sberbank_frontend_web_node_id := frontendNodeId
    sberbank_backend_api_web_node_id := backendNodeId }

/-- The restore failure reported for an unusable stored state. -/
inductive SessionError where
  | sessionInvalid : SessionError
deriving DecidableEq, Repr

/-- Modelled from the spec: the repository only writes the session file
(`pickle.dump` in `__conserve_session`) and never reads it back, so the
Session Store restore operation is missing from src/.  Following the
specification, restore reads the persisted Session State back and reports
`SessionInvalid` instead of a usable session when either node identifier is
missing. -/
def restoreSession (d : SberSessionData) :
    Except SessionError SberSessionData :=
  match d.sberbank_frontend_web_node_id, d.sberbank_backend_api_web_node_id with
  | some _, some _ => .ok d
  | _, _ => .error .sessionInvalid

/-- An untyped Python exception escaping a bootstrap method. -/
inductive PyError where
  | attributeError : PyError
deriving DecidableEq, Repr

/-- What the environment offers the TBank bootstrap: whether the landing-page
request is observed within the login bound, and the body of the operations
response when one is observed within its bound. -/
structure TBankBootstrapEnv where
  loginRequestObserved : Bool
  operationsResponseBody : Option (List Nat)
deriving Repr

/-- The observable outcome of `TBankApiClient._login_and_save_session`:
whatever escapes the method, whether the session was pickled, whether the
method finished by logging that the session is saved and usable, and the
resulting operations cache. -/
structure TBankBootstrapOutcome where
  surfacedError : Option PyError
  sessionConserved : Bool
  reportedUsable : Bool
  cache : Cache
deriving DecidableEq, Repr

/-- The embedding of `TBankApiClient._login_and_save_session`: the try block
waits for the login and operations requests and ingests the captured body;
TimeoutException and every other exception are caught and only logged.
After the try block the method unconditionally logs
"Login successful. Retrieving session data...", pickles the session via
`__conserve_session` (which always succeeds: it only reads driver cookies and
the user agent), and logs "Session data saved. You are in!". -/
def tbankLoginAndSaveSession (codec : Codec) (env : TBankBootstrapEnv)
    (c : Cache) : TBankBootstrapOutcome :=
  let c2 :=
    if env.loginRequestObserved then
      match env.operationsResponseBody with
      | some body => saveNewOperationsToCacheFile codec c body
      | none => c
    else c
  { surfacedError := none
    sessionConserved := true
    reportedUsable := true
    cache := c2 }

/-- What the environment offers the Sber bootstrap: the host observed on the
landing-page request (none when the wait times out) and, for the metadata
request, its host together with its headers. -/
structure SberBootstrapEnv where
  frontendNodeRequestHost : Option String
  backendNodeRequest : Option (String × List (String × String))
  driverCookies : List DriverCookie
  userAgent : String
  localStorage : List (String × String)
deriving Repr

/-- The observable outcome of `SberBankApiClient._login_and_save_session`. -/
structure SberBootstrapOutcome where
  surfacedError : Option PyError
  missingNodeIdsErrorSwallowed : Bool
  loggedLoginSuccessful : Bool
  sessionConserved : Option SberSessionData
  reportedUsable : Bool
deriving DecidableEq, Repr

/-- The embedding of `SberBankApiClient._login_and_save_session`.  Inside the
try block the frontend node id is awaited, then the backend node id; a
timeout on the frontend wait skips the rest of the block.  When only one node
id is found the method raises its own "Missing ... node id" exception, which
its own generic except handler immediately catches and logs.  After the try
block the method unconditionally logs "Login successful. Retrieving session
data..." and calls `__conserve_session`; that call reads the attribute
`SBERBANK_BACKEND_API_WEB_NODE_HEADERS`, which was only assigned when the
metadata request was observed, so in every failure case an AttributeError
escapes instead and nothing is persisted. -/
def sberLoginAndSaveSession (env : SberBootstrapEnv) : SberBootstrapOutcome :=
  let fid := env.frontendNodeRequestHost
  let backend :=
    match fid with
    | none => none
    | some _ => env.backendNodeRequest
  let swallowed := fid.isSome && backend.isNone
  match fid, backend with
  | some f, some (b, backendHeaders) =>
    { surfacedError := none
      missingNodeIdsErrorSwallowed := swallowed
      loggedLoginSuccessful := true
      sessionConserved := some (conserveSessionData env.driverCookies
        env.userAgent backendHeaders env.localStorage (some f) (some b))
      reportedUsable := true }
  | _, _ =>
    { surfacedError := some .attributeError
      missingNodeIdsErrorSwallowed := swallowed
      loggedLoginSuccessful := true
      sessionConserved := none
      reportedUsable := false }

/-! Helper lemmas about the cache operations. -/

theorem recordsFor_nil (k : JVal) : Cache.recordsFor [] k = [] := rfl

theorem recordsFor_cons (p : JVal × JVal) (c : Cache) (k : JVal) :
    Cache.recordsFor (p :: c) k =
      if p.1 = k then p.2 :: Cache.recordsFor c k else Cache.recordsFor c k := by
  by_cases h : p.1 = k <;> simp [Cache.recordsFor, List.filter_cons, h]

theorem recordsFor_append (c1 c2 : Cache) (k : JVal) :
    Cache.recordsFor (c1 ++ c2) k =
      Cache.recordsFor c1 k ++ Cache.recordsFor c2 k := by
  simp [Cache.recordsFor, List.filter_append]

theorem upsert_cons_of_ne (p : JVal × JVal) (c : Cache) (k v : JVal)
    (h : ¬ p.1 = k) :
    Cache.upsert (p :: c) k v = p :: Cache.upsert c k v := by
  unfold Cache.upsert
  by_cases hc : (c.any fun q => decide (q.1 = k)) = true <;>
    simp [List.any_cons, h, hc]

theorem filter_after_replace (c : Cache) (k v : JVal)
    (h : ∀ q ∈ c, q.1 ≠ k) :
    Cache.recordsFor
      (c.map (fun p => if p.1 = k then (k, v) else p)) k = [] := by
  induction c with
  | nil => rfl
  | cons p rest ih =>
    have hp : p.1 ≠ k := h p (by simp)
    simp only [List.map_cons, recordsFor_cons, if_neg hp]
    exact ih (fun q hq => h q (by simp [hq]))

theorem recordsFor_map_replace_ne (c : Cache) (k v j : JVal)
    (hj : ¬ (k = j)) :
    Cache.recordsFor (c.map (fun p => if p.1 = k then (k, v) else p)) j =
      Cache.recordsFor c j := by
  induction c with
  | nil => rfl
  | cons p rest ih =>
    by_cases hp : p.1 = k
    · have hpj : ¬ (p.1 = j) := by rw [hp]; exact hj
      rw [List.map_cons, if_pos hp, recordsFor_cons, if_neg hj,
        recordsFor_cons, if_neg hpj, ih]
    · rw [List.map_cons, if_neg hp]
      by_cases hpj : p.1 = j
      · rw [recordsFor_cons, if_pos hpj, recordsFor_cons, if_pos hpj, ih]
      · rw [recordsFor_cons, if_neg hpj, recordsFor_cons, if_neg hpj, ih]

theorem recordsFor_upsert_self (c : Cache) (k v : JVal)
    (h : c.keys.Nodup) : (c.upsert k v).recordsFor k = [v] := by
  unfold Cache.upsert
  by_cases hc : (c.any fun q => decide (q.1 = k)) = true
  · rw [if_pos hc]
    induction c with
    | nil => simp at hc
    | cons p rest ih =>
      rcases List.nodup_cons.mp h with ⟨hnotin, hrest⟩
      by_cases hp : p.1 = k
      · have hne : ∀ q ∈ rest, q.1 ≠ k := by
          intro q hq hqk
          apply hnotin
          rw [hp, ← hqk]
          exact List.mem_map_of_mem Prod.fst hq

        rw [List.map_cons, if_pos hp, recordsFor_cons, if_pos rfl,
          filter_after_replace rest k v hne]
      · have hcrest : (rest.any fun q => decide (q.1 = k)) = true := by
          rcases List.any_eq_true.mp hc with ⟨q, hq, hqk⟩
          rcases List.mem_cons.mp hq with hq1 | hq2
          · exact absurd (of_decide_eq_true (hq1 ▸ hqk)) hp
          · exact List.any_eq_true.mpr ⟨q, hq2, hqk⟩
        rw [List.map_cons, if_neg hp, recordsFor_cons, if_neg hp]
        exact ih hrest hcrest
  · rw [if_neg hc, recordsFor_append, recordsFor_cons, if_pos rfl,
      recordsFor_nil]
    have hfil : List.filter (fun p => decide (p.1 = k)) c = [] :=
      List.filter_eq_nil_iff.mpr
        (fun p hp hpk => hc (List.any_eq_true.mpr ⟨p, hp, hpk⟩))
    have hnone : Cache.recordsFor c k = [] := by
      unfold Cache.recordsFor
      rw [hfil]
      rfl
    rw [hnone, List.nil_append]

theorem recordsFor_upsert_ne (c : Cache) (k v j : JVal) (hj : j ≠ k) :
    (c.upsert k v).recordsFor j = c.recordsFor j := by
  have hkj : ¬ (k = j) := fun hh => hj hh.symm
  unfold Cache.upsert
  by_cases hc : (c.any fun q => decide (q.1 = k)) = true
  · rw [if_pos hc]
    exact recordsFor_map_replace_ne c k v j hkj
  · rw [if_neg hc, recordsFor_append, recordsFor_cons, if_neg hkj,
      recordsFor_nil, List.append_nil]

theorem keys_map_replace (c : Cache) (k v : JVal) :
    Cache.keys (c.map (fun p => if p.1 = k then (k, v) else p)) =
      c.keys := by
  induction c with
  | nil => rfl
  | cons p rest ih =>
    by_cases hp : p.1 = k
    · show (if p.1 = k then (k, v) else p).1 :: _ = _
      rw [if_pos hp]
      show k :: Cache.keys (rest.map _) = p.1 :: Cache.keys rest
      rw [ih, hp]
    · show (if p.1 = k then (k, v) else p).1 :: _ = _
      rw [if_neg hp]
      show p.1 :: Cache.keys (rest.map _) = p.1 :: Cache.keys rest
      rw [ih]

theorem keys_upsert_nodup (c : Cache) (k v : JVal)
    (h : c.keys.Nodup) : (c.upsert k v).keys.Nodup := by
  unfold Cache.upsert
  by_cases hc : (c.any fun q => decide (q.1 = k)) = true
  · rw [if_pos hc]
    show (Cache.keys (c.map _)).Nodup
    rw [keys_map_replace]
    exact h
  · rw [if_neg hc]
    have hnot : k ∉ c.keys := by
      intro hk
      rcases List.mem_map.mp hk with ⟨p, hp, hpk⟩
      apply hc
      exact List.any_eq_true.mpr ⟨p, hp, decide_eq_true hpk⟩
    show (Cache.keys (c ++ [(k, v)])).Nodup
    rw [Cache.keys, List.map_append, List.nodup_append]
    refine ⟨h, List.nodup_singleton k, ?_⟩
    intro a ha hb
    rcases List.mem_singleton.mp hb with rfl
    exact hnot ha

/-- Ingesting a body whose payload is a single record with a truthy
identifier is exactly one upsert. -/
theorem save_single_op (codec : Codec) (c : Cache) (body : List Nat)
    (r i : JVal) (hex : extractOps codec body = some [r])
    (hid : objGet r "id" = some i) (ht : truthy i = true) :
    saveNewOperationsToCacheFile codec c body = c.upsert i r := by
  have hobj : isObj r = true := by
    cases r <;> simp [objGet, isObj] at hid ⊢
  unfold saveNewOperationsToCacheFile
  simp [hex, ingestOps, hobj, hid, ht]

/-- C1: for every cache state and every two transaction records carrying the
same (truthy) unique identifier, each arriving inside a listing-response
payload ingested in sequence, the resulting cache holds exactly one record
under that identifier, equal to the second one ingested, and the records
stored under every other identifier are untouched. -/
theorem ingest_same_id_last_write_wins (codec : Codec) (c : Cache)
    (b1 b2 : List Nat) (r1 r2 i : JVal)
    (hnodup : c.keys.Nodup)
    (h1 : extractOps codec b1 = some [r1])
    (h2 : extractOps codec b2 = some [r2])
    (hid1 : objGet r1 "id" = some i)
    (hid2 : objGet r2 "id" = some i)
    (ht : truthy i = true) :
    (saveNewOperationsToCacheFile codec
        (saveNewOperationsToCacheFile codec c b1) b2).recordsFor i = [r2] ∧
    ∀ j, j ≠ i →
      (saveNewOperationsToCacheFile codec
        (saveNewOperationsToCacheFile codec c b1) b2).recordsFor j =
        c.recordsFor j := by
  rw [save_single_op codec c b1 r1 i h1 hid1 ht,
    save_single_op codec (c.upsert i r1) b2 r2 i h2 hid2 ht]
  refine ⟨?_, ?_⟩
  · exact recordsFor_upsert_self (c.upsert i r1) i r2
      (keys_upsert_nodup c i r1 hnodup)
  · intro j hj
    rw [recordsFor_upsert_ne (c.upsert i r1) i r2 j hj,
      recordsFor_upsert_ne c i r1 j hj]

/-- A transaction record with identifier A and amount 100. -/
def opA100 : JVal := .obj [("id", .str "A"), ("amount", .num 100)]

/-- A transaction record with identifier A and amount 150. -/
def opA150 : JVal := .obj [("id", .str "A"), ("amount", .num 150)]

/-- A transaction record with identifier B. -/
def opB200 : JVal := .obj [("id", .str "B"), ("amount", .num 200)]

/-- A concrete codec for evaluating the ingest pipeline: body [1] parses to a
payload holding `opA100` and body [2] to a payload holding `opA150`. -/
def twoBodyCodec : Codec where
  decompress := fun _ => none
  parse := fun body =>
    if body = [1] then some (.obj [("payload", .arr [opA100])])
    else if body = [2] then some (.obj [("payload", .arr [opA150])])
    else none

theorem ingest_same_id_last_write_wins_witness :
    (saveNewOperationsToCacheFile twoBodyCodec
        (saveNewOperationsToCacheFile twoBodyCodec
          [(.str "B", opB200)] [1]) [2]).recordsFor (.str "A") = [opA150] ∧
    (saveNewOperationsToCacheFile twoBodyCodec
        (saveNewOperationsToCacheFile twoBodyCodec
          [(.str "B", opB200)] [1]) [2]).recordsFor (.str "B") =
      [opB200] := by
  have h := ingest_same_id_last_write_wins twoBodyCodec
    [(.str "B", opB200)] [1] [2] opA100 opA150 (.str "A")
    (by decide) (by decide) (by decide) (by decide) (by decide) (by decide)
  exact ⟨h.1, h.2 (.str "B") (by decide)⟩

/-- A codec on which every decompression and every parse raises. -/
def failCodec : Codec where
  decompress := fun _ => none
  parse := fun _ => none

/-- C6: a payload that fails to decode or parse as the expected structured
data is caught and logged inside the ingest operation, which returns instead
of raising into the watcher loop and leaves the transaction cache
unchanged. -/
theorem ingest_parse_failure_leaves_cache_unchanged (codec : Codec)
    (c : Cache) (body : List Nat) (h : extractOps codec body = none) :
    saveNewOperationsToCacheFile codec c body = c := by
  unfold saveNewOperationsToCacheFile
  rw [h]

theorem ingest_parse_failure_leaves_cache_unchanged_witness :
    saveNewOperationsToCacheFile failCodec [(.str "B", opB200)] [0] =
      [(.str "B", opB200)] :=
  ingest_parse_failure_leaves_cache_unchanged failCodec
    [(.str "B", opB200)] [0] (by decide)

/-- C7: ingesting a body that opens with the two-byte gzip signature and
decompresses to a payload leaves the cache in exactly the state reached by
ingesting the decompressed payload directly. -/
theorem ingest_gzip_compressed_roundtrip (codec : Codec) (c : Cache)
    (comp payload : List Nat)
    (hmagic : gzipMagic.isPrefixOf comp = true)
    (hdec : codec.decompress comp = some payload)
    (hplain : gzipMagic.isPrefixOf payload = false) :
    saveNewOperationsToCacheFile codec c comp =
      saveNewOperationsToCacheFile codec c payload := by
  unfold saveNewOperationsToCacheFile extractOps
  simp [hmagic, hdec, hplain]

/-- A codec whose decompression maps the compressed body [31, 139, 3] to the
plain body [7], which parses to a one-record payload. -/
def gzipWitnessCodec : Codec where
  decompress := fun body => if body = [31, 139, 3] then some [7] else none
  parse := fun body =>
    if body = [7] then some (.obj [("payload", .arr [opA100])]) else none

theorem ingest_gzip_compressed_roundtrip_witness :
    saveNewOperationsToCacheFile gzipWitnessCodec [] [31, 139, 3] =
      saveNewOperationsToCacheFile gzipWitnessCodec [] [7] :=
  ingest_gzip_compressed_roundtrip gzipWitnessCodec [] [31, 139, 3] [7]
    (by decide) (by decide) (by decide)

/-- A non-record entry with no identifier field. -/
def opNoId : JVal := .obj [("note", .str "promo")]

/-- A record whose identifier field is present but holds the empty string. -/
def opEmptyId : JVal := .obj [("id", .str ""), ("amount", .num 5)]

/-- A codec for evaluating a payload that mixes a record with an empty
identifier, a record with an ordinary identifier, and an entry with no
identifier field at all. -/
def mixedIdCodec : Codec where
  decompress := fun _ => none
  parse := fun body =>
    if body = [8] then
      some (.obj [("payload", .arr [opEmptyId, opA100, opNoId])])
    else none

/-- C8 counterexample: the claim says ingestion upserts exactly the entries
that have an identifier field, but the code tests the identifier for Python
truthiness, so the record whose identifier field holds the empty string is
present in the payload, carries the field, and is still not upserted. -/
theorem ingest_mixed_ids_counterexample :
    (objGet opEmptyId "id").isSome = true ∧
    extractOps mixedIdCodec [8] = some [opEmptyId, opA100, opNoId] ∧
    saveNewOperationsToCacheFile mixedIdCodec [] [8] =
      [(.str "A", opA100)] ∧
    opEmptyId ∉ (saveNewOperationsToCacheFile mixedIdCodec [] [8]).values := by
  decide

/-- The ingest merge contract as amended, stated on the spec side: each
object record whose identifier value is truthy is upserted under it, every
other record is skipped. -/
def specUpsertTruthyIds (c : Cache) (ops : List JVal) : Cache :=
  ops.foldl (fun acc op =>
    let opId := (objGet op "id").getD .null
    if truthy opId then acc.upsert opId op else acc) c

theorem ingestOps_eq_spec (ops : List JVal) (c : Cache)
    (hobj : ∀ op ∈ ops, isObj op = true) :
    ingestOps c ops = some (specUpsertTruthyIds c ops) := by
  induction ops generalizing c with
  | nil => rfl
  | cons op rest ih =>
    have h1 : isObj op = true := hobj op (by simp)
    simp only [ingestOps, h1, if_true]
    rw [ih _ (fun q hq => hobj q (by simp [hq]))]
    rfl

/-- C8 (amended): ingesting a payload whose entries are all records succeeds
without error; the entries whose identifier value is truthy (present and
non-empty) are upserted and all others, including the entries lacking the
identifier field, are skipped. -/
theorem ingest_mixed_ids_amended (codec : Codec) (c : Cache)
    (body : List Nat) (ops : List JVal)
    (hex : extractOps codec body = some ops)
    (hobj : ∀ op ∈ ops, isObj op = true) :
    saveNewOperationsToCacheFile codec c body = specUpsertTruthyIds c ops := by
  unfold saveNewOperationsToCacheFile
  rw [hex]
  show (match ingestOps c ops with | some c2 => c2 | none => c) = _
  rw [ingestOps_eq_spec ops c hobj]

theorem ingest_mixed_ids_amended_witness :
    saveNewOperationsToCacheFile mixedIdCodec [] [8] =
      specUpsertTruthyIds [] [opEmptyId, opA100, opNoId] :=
  ingest_mixed_ids_amended mixedIdCodec [] [8]
    [opEmptyId, opA100, opNoId] (by decide) (by decide)

/-! Lemmas about the query path. -/

theorem filterOperations_isSome (a b : Int) (vals : List JVal)
    (hwf : ∀ op ∈ vals, (debitingTimeMs op).isSome = true) :
    ∃ l, filterOperations a b vals = some l := by
  induction vals with
  | nil => exact ⟨[], rfl⟩
  | cons q rest ih =>
    rcases ih (fun op hop => hwf op (by simp [hop])) with ⟨tail, htail⟩
    rcases Option.isSome_iff_exists.mp (hwf q (by simp)) with ⟨m, hm⟩
    cases m with
    | none => exact ⟨tail, by simp [filterOperations, hm, htail]⟩
    | some t =>
      by_cases hc : a ≤ t ∧ t ≤ b
      · exact ⟨q :: tail, by simp [filterOperations, hm, htail, hc]⟩
      · exact ⟨tail, by simp [filterOperations, hm, htail, hc]⟩

theorem filterOperations_some_mem (a b : Int) (vals l : List JVal)
    (hl : filterOperations a b vals = some l) :
    ∀ op, op ∈ l ↔ op ∈ vals ∧
      ∃ t, debitingTimeMs op = some (some t) ∧ a ≤ t ∧ t ≤ b := by
  induction vals generalizing l with
  | nil =>
    have : l = [] := by simpa [filterOperations] using hl.symm
    subst this
    simp
  | cons q rest ih =>
    rw [filterOperations] at hl
    cases hm : debitingTimeMs q with
    | none => rw [hm] at hl; simp at hl
    | some m =>
      rw [hm] at hl
      cases hrest : filterOperations a b rest with
      | none => rw [hrest] at hl; simp at hl
      | some tail =>
        rw [hrest] at hl
        have ihm := ih tail hrest
        cases m with
        | none =>
          simp only [Option.some_bind] at hl
          cases hl
          intro op
          rw [ihm op]
          constructor
          · rintro ⟨hmem, t, ht, hab⟩
            exact ⟨List.mem_cons_of_mem q hmem, t, ht, hab⟩
          · rintro ⟨hmem, t, ht, hab⟩
            rcases List.mem_cons.mp hmem with rfl | hmem2
            · rw [hm] at ht; cases ht
            · exact ⟨hmem2, t, ht, hab⟩
        | some t =>
          simp only [Option.some_bind] at hl
          by_cases hc : a ≤ t ∧ t ≤ b
          · rw [if_pos hc] at hl
            cases hl
            intro op
            constructor
            · intro hop
              rcases List.mem_cons.mp hop with rfl | hop2
              · exact ⟨List.mem_cons_self op rest, t, hm, hc⟩
              · rcases (ihm op).mp hop2 with ⟨hmem, u, hu, hab⟩
                exact ⟨List.mem_cons_of_mem q hmem, u, hu, hab⟩
            · rintro ⟨hmem, u, hu, hab⟩
              rcases List.mem_cons.mp hmem with rfl | hmem2
              · exact List.mem_cons_self op tail
              · exact List.mem_cons_of_mem q ((ihm op).mpr ⟨hmem2, u, hu, hab⟩)
          · rw [if_neg hc] at hl
            cases hl
            intro op
            rw [ihm op]
            constructor
            · rintro ⟨hmem, u, hu, hab⟩
              exact ⟨List.mem_cons_of_mem q hmem, u, hu, hab⟩
            · rintro ⟨hmem, u, hu, hab⟩
              rcases List.mem_cons.mp hmem with rfl | hmem2
              · rw [hm] at hu
                cases hu
                exact absurd hab hc
              · exact ⟨hmem2, u, hu, hab⟩

theorem filterOperations_append_skipped (r : JVal)
    (hr : debitingTimeMs r = some none) (a b : Int) :
    ∀ vals, filterOperations a b (vals ++ [r]) = filterOperations a b vals := by
  intro vals
  induction vals with
  | nil => simp [filterOperations, hr]
  | cons q rest ih => simp [filterOperations, ih]

theorem filterOperations_from_gt_to_empty (a b : Int) (hgt : b < a) :
    ∀ (vals l : List JVal), filterOperations a b vals = some l → l = [] := by
  intro vals
  induction vals with
  | nil =>
    intro l hl
    simpa [filterOperations] using hl.symm
  | cons q rest ih =>
    intro l hl
    rw [filterOperations] at hl
    cases hm : debitingTimeMs q with
    | none => rw [hm] at hl; simp at hl
    | some m =>
      rw [hm] at hl
      cases hrest : filterOperations a b rest with
      | none => rw [hrest] at hl; simp at hl
      | some tail =>
        rw [hrest] at hl
        cases m with
        | none =>
          have hl2 : tail = l := by simpa using hl
          exact hl2 ▸ ih tail hrest
        | some t =>
          have hc : ¬ (a ≤ t ∧ t ≤ b) := by
            rintro ⟨h1, h2⟩
            exact absurd (le_trans h1 h2) (not_le.mpr hgt)
          have hl2 : tail = l := by simpa [hc] using hl
          exact hl2 ▸ ih tail hrest

/-- C4 counterexample: with both bounds present and from (100 ms) greater
than to (50 ms), TBankOperationsFilter is constructed successfully — the
constructor performs no ordering validation and does not raise. -/
theorem filter_from_gt_to_constructor_succeeds :
    mkTBankOperationsFilter (fun _ => none) 0 "100" (some "50") .rfNone =
      some { date_from := "100", date_to := "50", result_format := none } ∧
    pyStrToInt "100" = some 100 ∧ pyStrToInt "50" = some 50 ∧
    (50 : Int) < 100 := by
  refine ⟨rfl, by decide, by decide, by decide⟩

/-- C4 (amended): the constructor performs no ordering validation, so a
filter with from > to is constructed successfully; every query evaluated
with such a filter returns the empty record set, the inclusive range being
empty. -/
theorem filter_from_gt_to_query_empty (parseDate : String → Option Int)
    (nowMs : Int) (dateFrom : String) (dateTo : Option String)
    (rf : ResultFormatInput) (flt : TBankOperationsFilter) (c : Cache)
    (a b : Int) (res : QueryResult)
    (hmk : mkTBankOperationsFilter parseDate nowMs dateFrom dateTo rf =
      some flt)
    (hfrom : pyStrToInt flt.date_from = some a)
    (hto : pyStrToInt flt.date_to = some b)
    (hgt : b < a)
    (hq : getOperations c flt = some res) :
    res.ops = [] := by
  unfold getOperations at hq
  rw [hfrom, hto] at hq
  simp only [Option.some_bind] at hq
  cases hf : filterOperations a b c.values with
  | none => rw [hf] at hq; simp at hq
  | some l =>
    rw [hf] at hq
    simp only [Option.some_bind, Option.some_inj] at hq
    have hnil : l = [] := filterOperations_from_gt_to_empty a b hgt c.values l hf
    subst hnil
    rw [← hq]
    cases hres : flt.result_format with
    | none => rfl
    | some rfmt => cases rfmt <;> rfl

/-- A record timestamped at 70 ms. -/
def opTs70 : JVal :=
  .obj [("id", .str "C"), ("debitingTime", .obj [("milliseconds", .num 70)])]

theorem filter_from_gt_to_query_empty_witness :
    (QueryResult.records [] : QueryResult).ops = [] :=
  filter_from_gt_to_query_empty (fun _ => none) 0 "100" (some "50") .rfNone
    { date_from := "100", date_to := "50", result_format := none }
    [(.str "C", opTs70)] 100 50 (.records []) (by decide) (by decide)
    (by decide) (by decide) (by decide)

/-- C5: for every well-formed cache and every filter whose parsed bounds
satisfy from ≤ to, the query succeeds and returns exactly the cached records
whose debitingTime milliseconds value lies in the inclusive range; for
from = to, exactly the records timestamped at that instant. -/
theorem query_returns_exactly_range (c : Cache) (f : TBankOperationsFilter)
    (dateFrom dateTo : Int)
    (hfrom : pyStrToInt f.date_from = some dateFrom)
    (hto : pyStrToInt f.date_to = some dateTo)
    (hle : dateFrom ≤ dateTo)
    (hwf : ∀ op ∈ c.values, (debitingTimeMs op).isSome = true) :
    ∃ l, filterOperations dateFrom dateTo c.values = some l ∧
      getOperations c f = some (match f.result_format with
        | some .rdataFrame => .dataFrame l
        | _ => .records l) ∧
      (∀ op, op ∈ l ↔ op ∈ c.values ∧
        ∃ t, debitingTimeMs op = some (some t) ∧
          dateFrom ≤ t ∧ t ≤ dateTo) ∧
      (dateFrom = dateTo → ∀ op, op ∈ l ↔ op ∈ c.values ∧
        debitingTimeMs op = some (some dateFrom)) := by
  rcases filterOperations_isSome dateFrom dateTo c.values hwf with ⟨l, hl⟩
  refine ⟨l, hl, ?_, filterOperations_some_mem dateFrom dateTo c.values l hl,
    ?_⟩
  · unfold getOperations
    rw [hfrom, hto]
    simp only [Option.some_bind, hl]
  · intro heq op
    rw [filterOperations_some_mem dateFrom dateTo c.values l hl op]
    constructor
    · rintro ⟨hmem, t, ht, h1, h2⟩
      have h3 : t = dateFrom := le_antisymm (heq ▸ h2) h1
      exact ⟨hmem, h3 ▸ ht⟩
    · rintro ⟨hmem, ht⟩
      exact ⟨hmem, dateFrom, ht, le_refl _, heq ▸ le_refl _⟩

/-- A record timestamped at 150 ms. -/
def opTs150 : JVal :=
  .obj [("id", .str "A"), ("debitingTime", .obj [("milliseconds", .num 150)])]

/-- A record timestamped at 250 ms. -/
def opTs250 : JVal :=
  .obj [("id", .str "B"), ("debitingTime", .obj [("milliseconds", .num 250)])]

theorem query_returns_exactly_range_witness :
    ∃ l, filterOperations 100 200
        (Cache.values [(.str "A", opTs150), (.str "B", opTs250)]) = some l ∧
      getOperations [(.str "A", opTs150), (.str "B", opTs250)]
        { date_from := "100", date_to := "200", result_format := none } =
        some (.records l) ∧
      (∀ op, op ∈ l ↔
        op ∈ Cache.values [(.str "A", opTs150), (.str "B", opTs250)] ∧
        ∃ t, debitingTimeMs op = some (some t) ∧ 100 ≤ t ∧ t ≤ 200) ∧
      ((100 : Int) = 200 → ∀ op, op ∈ l ↔
        op ∈ Cache.values [(.str "A", opTs150), (.str "B", opTs250)] ∧
        debitingTimeMs op = some (some 100)) :=
  query_returns_exactly_range [(.str "A", opTs150), (.str "B", opTs250)]
    { date_from := "100", date_to := "200", result_format := none }
    100 200 (by decide) (by decide) (by decide) (by decide)

/-- C10: a cached record that lacks a debitingTime milliseconds value is
silently excluded by the query: appending such a record to any cache leaves
every query result unchanged (in particular it never makes the query fail),
and the record never appears in a returned result, whatever the bounds. -/
theorem query_excludes_records_without_timestamp (c : Cache)
    (f : TBankOperationsFilter) (k r : JVal)
    (hr : debitingTimeMs r = some none) :
    getOperations (c ++ [(k, r)]) f = getOperations c f ∧
    ∀ res, getOperations (c ++ [(k, r)]) f = some res → r ∉ res.ops := by
  have hvals : Cache.values (c ++ [(k, r)]) = c.values ++ [r] := by
    simp [Cache.values]
  have hmain : getOperations (c ++ [(k, r)]) f = getOperations c f := by
    unfold getOperations
    rw [hvals]
    simp only [filterOperations_append_skipped r hr]
  refine ⟨hmain, ?_⟩
  intro res hres
  rw [hmain] at hres
  unfold getOperations at hres
  cases h1 : pyStrToInt f.date_from with
  | none => simp only [h1] at hres; cases hres
  | some a =>
    cases h2 : pyStrToInt f.date_to with
    | none => simp only [h1, h2] at hres; cases hres
    | some b =>
      cases h3 : filterOperations a b c.values with
      | none => simp only [h1, h2, h3] at hres; cases hres
      | some l =>
        simp only [h1, h2, h3, Option.some_inj] at hres
        have hops : res.ops = l := by
          rw [← hres]
          cases f.result_format with
          | none => rfl
          | some rfmt => cases rfmt <;> rfl
        rw [hops]
        intro hmem
        rcases (filterOperations_some_mem a b c.values l h3 r).mp hmem
          with ⟨hmemv, t, ht, hab⟩
        rw [hr] at ht
        cases ht

theorem query_excludes_records_without_timestamp_witness :
    getOperations ([(.str "A", opTs150)] ++ [(.str "D", opNoId)])
        { date_from := "100", date_to := "200", result_format := none } =
      getOperations [(.str "A", opTs150)]
        { date_from := "100", date_to := "200", result_format := none } ∧
    ∀ res, getOperations ([(.str "A", opTs150)] ++ [(.str "D", opNoId)])
        { date_from := "100", date_to := "200", result_format := none } =
        some res → opNoId ∉ res.ops :=
  query_excludes_records_without_timestamp [(.str "A", opTs150)]
    { date_from := "100", date_to := "200", result_format := none }
    (.str "D") opNoId (by decide)

/-- C9: an unrecognized result format value degrades to None in both filter
constructors (which succeed rather than raise), and a subsequent query with
the TBank filter returns the default plain-records shape. -/
theorem unrecognized_result_format_degrades (tag : String)
    (parseDate : String → Option Int) (nowMs : Int) (dateFrom : String)
    (dateTo : Option String) (flt : TBankOperationsFilter) (c : Cache)
    (ot dfo dto : Option String) (resc : Option (List String))
    (po ps : Int) (sh : Bool)
    (hmk : mkTBankOperationsFilter parseDate nowMs dateFrom dateTo
      (.rfOther tag) = some flt) :
    flt.result_format = none ∧
    (∀ res, getOperations c flt = some res → ∃ l, res = .records l) ∧
    (mkSberBankOperationsFilter ot dfo dto resc (.rfOther tag) po ps
      sh).result_format = none := by
  have hrf : flt.result_format = none := by
    unfold mkTBankOperationsFilter at hmk
    cases hdf : convertDateToTimestamp parseDate dateFrom with
    | none => rw [hdf] at hmk; cases hmk
    | some df =>
      rw [hdf] at hmk
      cases hdt : (match dateTo with
          | none => some (toString nowMs)
          | some s => convertDateToTimestamp parseDate s) with
      | none => rw [hdt] at hmk; cases hmk
      | some dt =>
        rw [hdt] at hmk
        cases hmk
        rfl
  refine ⟨hrf, ?_, rfl⟩
  intro res hres
  unfold getOperations at hres
  cases h1 : pyStrToInt flt.date_from with
  | none => simp only [h1] at hres; cases hres
  | some a =>
    cases h2 : pyStrToInt flt.date_to with
    | none => simp only [h1, h2] at hres; cases hres
    | some b =>
      cases h3 : filterOperations a b c.values with
      | none => simp only [h1, h2, h3] at hres; cases hres
      | some l =>
        simp only [h1, h2, h3, hrf, Option.some_inj] at hres
        exact ⟨l, hres.symm⟩

theorem unrecognized_result_format_degrades_witness :
    ({ date_from := "100", date_to := "200", result_format := none } :
        TBankOperationsFilter).result_format = none ∧
    (∀ res, getOperations [(.str "A", opTs150)]
        { date_from := "100", date_to := "200", result_format := none } =
        some res → ∃ l, res = .records l) ∧
    (mkSberBankOperationsFilter none none none none
      (.rfOther "set") 0 51 false).result_format = none :=
  unrecognized_result_format_degrades "set" (fun _ => none) 0 "100"
    (some "200")
    ({ date_from := "100", date_to := "200", result_format := none } :
      TBankOperationsFilter)
    [(.str "A", opTs150)] none none none none 0 51 false (by decide)

/-- C2: persisting a Session State through __conserve_session and restoring
it yields a state with identical node identifiers and header set (the
restore returns exactly the persisted semantic content), and restoring a
persisted state missing either node identifier reports SessionInvalid
rather than a usable session. -/
theorem session_persist_restore_roundtrip
    (driverCookies : List DriverCookie) (userAgent : String)
    (backendHeaders : List (String × String))
    (localStorage : List (String × String)) (fid bid : String) :
    restoreSession (conserveSessionData driverCookies userAgent
        backendHeaders localStorage (some fid) (some bid)) =
      .ok (conserveSessionData driverCookies userAgent backendHeaders
        localStorage (some fid) (some bid)) ∧
    (∀ d : SberSessionData, d.sberbank_frontend_web_node_id = none ∨
        d.sberbank_backend_api_web_node_id = none →
      restoreSession d = .error .sessionInvalid) := by
  constructor
  · rfl
  · intro d hd
    unfold restoreSession
    rcases hd with h | h
    · rw [h]
    · rw [h]
      cases d.sberbank_frontend_web_node_id <;> rfl

theorem session_persist_restore_roundtrip_witness :
    restoreSession (conserveSessionData
        [{ name := "sid", value := "s1", domain := "online.sberbank.ru" }]
        "agent" [("X-Token", "t")] [("k", "v")]
        (some "web5") (some "api7")) =
      .ok (conserveSessionData
        [{ name := "sid", value := "s1", domain := "online.sberbank.ru" }]
        "agent" [("X-Token", "t")] [("k", "v")]
        (some "web5") (some "api7")) ∧
    restoreSession
      { cookies := [], selenium_driver_cookies := [], headers := [],
        local_storage := [], sberbank_frontend_web_node_id := none,
        sberbank_backend_api_web_node_id := some "api7" } =
      .error .sessionInvalid := by
  have h := session_persist_restore_roundtrip
    [{ name := "sid", value := "s1", domain := "online.sberbank.ru" }]
    "agent" [("X-Token", "t")] [("k", "v")] "web5" "api7"
  exact ⟨h.1, h.2 _ (Or.inl rfl)⟩

/-- C3, evaluated at the failing inputs: when the user never completes the
TBank login within its bound, _login_and_save_session surfaces no error at
all, still conserves (persists) the half-populated session, and still
reports it saved and usable; when Sber discovery finds only the frontend
node id, the method swallows its own missing-node-id exception, logs login
success, and then dies of an accidental AttributeError instead of surfacing
EndpointDiscoveryIncomplete. -/
theorem bootstrap_failures_swallowed :
    tbankLoginAndSaveSession failCodec
        { loginRequestObserved := false, operationsResponseBody := none }
        [] =
      { surfacedError := none, sessionConserved := true,
        reportedUsable := true, cache := [] } ∧
    sberLoginAndSaveSession
        { frontendNodeRequestHost := some "web1",
          backendNodeRequest := none, driverCookies := [],
          userAgent := "agent", localStorage := [] } =
      { surfacedError := some .attributeError,
        missingNodeIdsErrorSwallowed := true,
        loggedLoginSuccessful := true,
        sessionConserved := none,
        reportedUsable := false } :=
  ⟨rfl, rfl⟩

end Rubank
